import Mathlib

set_option autoImplicit false

/-!
Shallow embedding of the workout store of `src/routes/storage.py` and the
ingestion façade of `src/routes/ingest.py` (healthkit-mcp).

Modelling conventions:
* Python `dict` (insertion ordered, key update in place) is an association
  list `List (String × Workout)` with `dictInsert` replacing the value at the
  first occurrence of a key and appending fresh keys.
* Python string comparison is code-point lexicographic comparison on the
  underlying character lists (`lexLtB`).
* JSON numbers are carried as `Rat`.
* The wall clock (`datetime.now(ZoneInfo("America/Los_Angeles"))`) is an
  explicit parameter: its date portion is a `PDate`, `strftime("%Y-%m-%d")`
  is `renderChars`, and `now - timedelta(days=n)` acts on the date portion as
  `subDays` (wall-clock day arithmetic on the proleptic Gregorian calendar).
* The backing file is an explicit `FileState` value, and an I/O write that can
  fail is `rawWriteFile : … → Except String FileState`; the `try/except` in
  `_save_to_file` is the `match` in `save_to_file` that drops the error.
-/

/-- Python string `<` on two strings, as code-point lexicographic comparison
of their character lists. -/
def lexLtB : List Char → List Char → Bool
  | [], [] => false
  | [], _ :: _ => true
  | _ :: _, [] => false
  | a :: as, b :: bs =>
      decide (a.toNat < b.toNat) || (decide (a.toNat = b.toNat) && lexLtB as bs)

/-- Python `s.startswith(p)` : `p` is an initial segment of `s`. -/
def beginsWith : List Char → List Char → Bool
  | _, [] => true
  | [], _ :: _ => false
  | a :: as, b :: bs => a == b && beginsWith as bs

/-- The date portion of a timestamp, on the proleptic Gregorian calendar used
by Python `datetime`. -/
structure PDate where
  year : Nat
  month : Nat
  day : Nat
deriving DecidableEq

/-- Gregorian leap-year rule, as implemented by Python `datetime`. -/
def isLeap (y : Nat) : Bool := (y % 4 == 0 && y % 100 != 0) || y % 400 == 0

/-- Number of days in a month of the proleptic Gregorian calendar. -/
def daysInMonth (y m : Nat) : Nat :=
  if m == 2 then (if isLeap y then 29 else 28)
  else if m == 4 || m == 6 || m == 9 || m == 11 then 30
  else 31

/-- A date Python `datetime` can represent (`MINYEAR = 1`, `MAXYEAR = 9999`). -/
def PDate.Valid (d : PDate) : Prop :=
  1 ≤ d.year ∧ d.year ≤ 9999 ∧ 1 ≤ d.month ∧ d.month ≤ 12 ∧
    1 ≤ d.day ∧ d.day ≤ daysInMonth d.year d.month

instance (d : PDate) : Decidable d.Valid := by
  unfold PDate.Valid; infer_instance

/-- The calendar day before `d`. -/
def prevDay (d : PDate) : PDate :=
  if 2 ≤ d.day then ⟨d.year, d.month, d.day - 1⟩
  else if 2 ≤ d.month then ⟨d.year, d.month - 1, daysInMonth d.year (d.month - 1)⟩
  else ⟨d.year - 1, 12, 31⟩

/-- Date portion of `now - timedelta(days = n)`: wall-clock day arithmetic. -/
def subDays (d : PDate) : Nat → PDate
  | 0 => d
  | n + 1 => prevDay (subDays d n)

/-- Strict order on dates (year, then month, then day). -/
def dateLt (a b : PDate) : Prop :=
  a.year < b.year ∨ (a.year = b.year ∧
    (a.month < b.month ∨ (a.month = b.month ∧ a.day < b.day)))

/-- The decimal digit character for `n % 10`. -/
def dChar (n : Nat) : Char := Char.ofNat (48 + n % 10)

/-- Two-digit zero-padded decimal rendering (for `%m` and `%d`). -/
def pad2 (n : Nat) : List Char := [dChar (n / 10), dChar n]

/-- Four-digit zero-padded decimal rendering (for `%Y`, years 1000–9999). -/
def pad4 (n : Nat) : List Char := [dChar (n / 1000), dChar (n / 100), dChar (n / 10), dChar n]

/-- `strftime("%Y-%m-%d")` on a date, as a character list. -/
def renderChars (d : PDate) : List Char :=
  pad4 d.year ++ '-' :: (pad2 d.month ++ '-' :: pad2 d.day)

/-- A stored workout record: the dict held by the store; `none` is an absent
key (or JSON `null`). -/
structure Workout where
  type : Option String
  start : Option String
  «end» : Option String
  duration_minutes : Option Rat
  calories : Option Rat
  distance_km : Option Rat
  avg_heart_rate : Option Int
  source : Option String
  ingested_at : Option String
deriving DecidableEq

/-- Python f-string rendering of `workout.get(k)`: an absent key gives `None`,
which the f-string renders as the literal text `"None"`. -/
def pyOptStr : Option String → String
  | none => "None"
  | some s => s

/-- `workout.get("start", "")`. -/
def startOrEmpty (w : Workout) : String := w.start.getD ""

/-- The store's mapping `self.workouts` (a Python dict: insertion ordered). -/
structure Store where
  workouts : List (String × Workout)
deriving DecidableEq

/-- Contents of the backing file (`none` = file absent). -/
abbrev FileState : Type := Option (List Workout)

/-- Python `key in dict`. -/
def dictContains : List (String × Workout) → String → Bool
  | [], _ => false
  | (k', _) :: rest, k => k' == k || dictContains rest k

/-- Python `dict[key] = value`: replaces in place at an existing key,
appends a fresh key. -/
def dictInsert : List (String × Workout) → String → Workout → List (String × Workout)
  | [], k, v => [(k, v)]
  | (k', v') :: rest, k, v =>
      if k' = k then (k', v) :: rest else (k', v') :: dictInsert rest k v

/-- Python `dict.get(key)` (first occurrence). -/
def dictLookup : List (String × Workout) → String → Option Workout
  | [], _ => none
  | (k', v') :: rest, k => if k' = k then some v' else dictLookup rest k

/-- Python `list(dict.values())` (insertion order). -/
def dictValues (m : List (String × Workout)) : List Workout := m.map Prod.snd

/-- Insert into a descending-by-key run, after all entries with a strictly or
equally large key (stable descending, as `list.sort(key=…, reverse=True)`). -/
def insertDescBy {α : Type} (key : α → String) (x : α) : List α → List α
  | [] => [x]
  | y :: ys =>
      if lexLtB (key y).data (key x).data then x :: y :: ys
      else y :: insertDescBy key x ys

/-- Stable sort, descending by string key. -/
def sortDescBy {α : Type} (key : α → String) : List α → List α
  | [] => []
  | x :: xs => insertDescBy key x (sortDescBy key xs)

/-- Insert into an ascending-by-key run (stable ascending, as
`list.sort(key=…)`). -/
def insertAscBy {α : Type} (key : α → String) (x : α) : List α → List α
  | [] => [x]
  | y :: ys =>
      if lexLtB (key x).data (key y).data then x :: y :: ys
      else y :: insertAscBy key x ys

/-- Stable sort, ascending by string key. -/
def sortAscBy {α : Type} (key : α → String) : List α → List α
  | [] => []
  | x :: xs => insertAscBy key x (sortAscBy key xs)

/-- `DEFAULT_TIMEZONE` of `storage.py` / `ingest.py` / `data.py`. -/
def DEFAULT_TIMEZONE : String := "America/Los_Angeles"

namespace WorkoutStorage

/-- `WorkoutStorage._get_key`: `f"{workout.get('type')}_{workout.get('start')}"`. -/
def _get_key (w : Workout) : String :=
  pyOptStr w.type ++ "_" ++ pyOptStr w.start

/-- The attempted file write inside `_save_to_file`: replaces the file contents
with the serialized values on success (`ok = true`), raises on failure. -/
def rawWriteFile (ok : Bool) (content : List Workout) : Except String FileState :=
  if ok then .ok (some content) else .error "OSError"

/-- `WorkoutStorage._save_to_file`: tries to write all current values; an
exception is caught (warning printed) and the old file state kept. -/
def save_to_file (s : Store) (ok : Bool) (fs : FileState) : FileState :=
  match rawWriteFile ok (dictValues s.workouts) with
  | .ok fs' => fs'
  | .error _ => fs

/-- `WorkoutStorage.add_workout`: upsert at the derived key, then persist;
returns whether the key was previously absent. -/
def add_workout (s : Store) (w : Workout) (ok : Bool) (fs : FileState) :
    Bool × Store × FileState :=
  let key := _get_key w
  let is_new := !(dictContains s.workouts key)
  let s' : Store := ⟨dictInsert s.workouts key w⟩
  (is_new, s', save_to_file s' ok fs)

/-- `WorkoutStorage.get_all`: all values, sorted by `start` descending. -/
def get_all (s : Store) : List Workout × Store :=
  (sortDescBy startOrEmpty (dictValues s.workouts), s)

/-- `WorkoutStorage.get_by_date`: values whose `start` begins with `date_str`,
sorted by `start` ascending. -/
def get_by_date (s : Store) (date_str : String) : List Workout × Store :=
  (sortAscBy startOrEmpty ((dictValues s.workouts).filter
      (fun w => beginsWith (startOrEmpty w).data date_str.data)), s)

/-- `WorkoutStorage.get_by_type`: values whose `type` matches
case-insensitively, sorted by `start` descending. -/
def get_by_type (s : Store) (workout_type : String) : List Workout × Store :=
  (sortDescBy startOrEmpty ((dictValues s.workouts).filter
      (fun w => (w.type.getD "").toLower == workout_type.toLower)), s)

/-- `start[:10] if len(start) >= 10 else ""` on `workout.get("start", "")`. -/
def startDateChars (w : Workout) : List Char :=
  let cs := (startOrEmpty w).data
  if 10 ≤ cs.length then cs.take 10 else []

/-- `WorkoutStorage.get_recent`: values whose date portion is lexically ≥ the
cutoff string `(now - timedelta(days)).strftime("%Y-%m-%d")`, sorted by
`start` descending. `today` is the date portion of `datetime.now(pacific)`. -/
def get_recent (today : PDate) (s : Store) (days : Nat) : List Workout × Store :=
  let cutoff_str := renderChars (subDays today days)
  (sortDescBy startOrEmpty ((dictValues s.workouts).filter
      (fun w => !(lexLtB (startDateChars w) cutoff_str))), s)

/-- `WorkoutStorage.get_today`: `get_by_date` at today's date string. -/
def get_today (today : PDate) (s : Store) : List Workout × Store :=
  get_by_date s (String.mk (renderChars today))

/-- One `by_type` bucket of a summary. -/
structure TypeAgg where
  count : Nat
  total_duration : Rat
  total_calories : Rat
deriving DecidableEq

/-- One `workouts_by_date` entry of a summary. -/
structure DateEntry where
  type : String
  duration : Rat
  calories : Rat
deriving DecidableEq

/-- The dict returned by `get_summary`. -/
structure Summary where
  period_days : Nat
  total_workouts : Nat
  total_duration_minutes : Rat
  total_calories : Rat
  by_type : List (String × TypeAgg)
  workouts_by_date : List (String × List DateEntry)
deriving DecidableEq

/-- The `by_type` update for one record: create the zeroed bucket if absent,
then add the record's count/duration/calories to it. -/
def bumpAgg : List (String × TypeAgg) → String → Rat → Rat → List (String × TypeAgg)
  | [], t, dur, cal => [(t, ⟨1, dur, cal⟩)]
  | (t', a) :: rest, t, dur, cal =>
      if t' = t then (t', ⟨a.count + 1, a.total_duration + dur, a.total_calories + cal⟩) :: rest
      else (t', a) :: bumpAgg rest t dur cal

/-- The `workouts_by_date` update for one record: create the empty list if the
date key is absent, then append the entry. -/
def addDateEntry : List (String × List DateEntry) → String → DateEntry →
    List (String × List DateEntry)
  | [], dt, e => [(dt, [e])]
  | (dt', l) :: rest, dt, e =>
      if dt' = dt then (dt', l ++ [e]) :: rest
      else (dt', l) :: addDateEntry rest dt e

/-- The body of the `for w in workouts:` loop of `get_summary`. -/
def summaryStep (acc : Summary) (w : Workout) : Summary :=
  let wtype := w.type.getD "Unknown"
  let duration := (w.duration_minutes).getD 0
  let calories := (w.calories).getD 0
  let cs := (startOrEmpty w).data
  let date := if 10 ≤ cs.length then String.mk (cs.take 10) else "unknown"
  { acc with
    by_type := bumpAgg acc.by_type wtype duration calories
    total_duration_minutes := acc.total_duration_minutes + duration
    total_calories := acc.total_calories + calories
    workouts_by_date := addDateEntry acc.workouts_by_date date ⟨wtype, duration, calories⟩ }

/-- `WorkoutStorage.get_summary`: aggregates over `get_recent(days)`. -/
def get_summary (today : PDate) (s : Store) (days : Nat) : Summary × Store :=
  let ws := (get_recent today s days).1
  (ws.foldl summaryStep
    { period_days := days, total_workouts := ws.length, total_duration_minutes := 0,
      total_calories := 0, by_type := [], workouts_by_date := [] }, s)

/-- `WorkoutStorage.count`. -/
def count (s : Store) : Nat × Store := (s.workouts.length, s)

/-- `WorkoutStorage.clear`: empties the mapping, persists, returns prior size. -/
def clear (s : Store) (ok : Bool) (fs : FileState) : Nat × Store × FileState :=
  let c := s.workouts.length
  let s' : Store := ⟨[]⟩
  (c, s', save_to_file s' ok fs)

/-- The loop of `_load_from_file` on an already-parsed list of records:
each is inserted at the key derived by `_get_key`, starting from empty. -/
def loadFrom (l : List Workout) : Store :=
  ⟨l.foldl (fun m w => dictInsert m (_get_key w) w) []⟩

end WorkoutStorage

/-- The pydantic `WorkoutData` request model of `ingest.py` (`type` and
`start` required; `source` already carries its default when omitted). -/
structure WorkoutData where
  type : String
  start : String
  «end» : Option String
  duration_minutes : Option Rat
  calories : Option Rat
  distance_km : Option Rat
  avg_heart_rate : Option Int
  source : Option String
deriving DecidableEq

/-- `workout.model_dump()`: the record dict; note it has no `ingested_at`. -/
def model_dump (p : WorkoutData) : Workout :=
  { type := some p.type, start := some p.start, «end» := p.«end»,
    duration_minutes := p.duration_minutes, calories := p.calories,
    distance_km := p.distance_km, avg_heart_rate := p.avg_heart_rate,
    source := p.source, ingested_at := none }

/-- `get_api_key`: `os.getenv("HEALTHKIT_API_KEY", "")`. -/
def get_api_key (env : Option String) : String := env.getD ""

/-- The JSON body returned by `POST /workout`. -/
structure IngestResponse where
  status : String
  message : String
  workout_type : String
  start : String
  is_new : Bool
deriving DecidableEq

/-- `ingest_workout` of `ingest.py`: API-key check, then the record dict gets
`ingested_at = datetime.now(ZoneInfo(DEFAULT_TIMEZONE)).isoformat()` — passed
here as the clock parameter `pacificNow` — and is handed to
`workout_storage.add_workout`. A 401 is the `HTTPException`. -/
def ingest_workout (env_api_key : Option String) (x_api_key : Option String)
    (workout : WorkoutData) (pacificNow : String) (s : Store) (ok : Bool) (fs : FileState) :
    Except Nat (IngestResponse × Store × FileState) :=
  if get_api_key env_api_key ≠ "" ∧ x_api_key ≠ some (get_api_key env_api_key) then .error 401
  else
    let workout_dict := { model_dump workout with ingested_at := some pacificNow }
    let r := WorkoutStorage.add_workout s workout_dict ok fs
    .ok ({ status := "ok",
           message := if r.1 then "Workout ingested" else "Workout updated (duplicate)",
           workout_type := workout.type, start := workout.start, is_new := r.1 },
         r.2.1, r.2.2)

/-! ### Derived helpers and concrete sample data used by the theorems below -/

/-- A record with only `type` and `start` present. -/
def mkW (t st : String) : Workout :=
  ⟨some t, some st, none, none, none, none, none, none, none⟩

/-- Repeated ingestion through `add_workout` (store component only). -/
def addAll (ws : List Workout) (s : Store) : Store :=
  ws.foldl (fun st w => (WorkoutStorage.add_workout st w true none).2.1) s

/-- Sum of the `count` fields over all `by_type` buckets. -/
def sumCounts (l : List (String × WorkoutStorage.TypeAgg)) : Nat :=
  (l.map (fun p => p.2.count)).sum

/-- The dedup key as the spec's sentence describes it: an absent `type` or
`start` is treated as the empty string. Used to compare the spec's wording
against `_get_key`. -/
def specKeyEmptyDefault (w : Workout) : String :=
  (w.type.getD "") ++ "_" ++ (w.start.getD "")

/-- Sample: a run record. -/
def wRun1 : Workout := { mkW "Running" "2024-01-01T08:00:00-08:00" with calories := some 300 }

/-- Sample: a second record with the same `(type, start)` but other fields
changed. -/
def wRun2 : Workout := { mkW "Running" "2024-01-01T08:00:00-08:00" with calories := some 250 }

/-- Sample: a record with a distinct key. -/
def wYoga : Workout := { mkW "Yoga" "2024-01-02T09:00:00-08:00" with duration_minutes := some 45 }

/-- Sample: a record handed to `add_workout` without any `ingested_at`. -/
def wNoIngest : Workout := mkW "Running" "2024-01-01T08:00:00-08:00"

/-- Sample: a record carrying a caller-supplied `ingested_at`. -/
def wCallerStamp : Workout :=
  { mkW "Yoga" "2024-01-02T08:00:00-08:00" with ingested_at := some "1999-01-01T00:00:00" }

/-- Sample: a record with no `type` key at all. -/
def wNoType : Workout :=
  ⟨none, some "2024-01-01T08:00:00-08:00", none, none, none, none, none, none, none⟩

/-- Sample: field-boundary collision, variant 1. -/
def wColl1 : Workout := mkW "A_2024" "01-01"

/-- Sample: field-boundary collision, variant 2. -/
def wColl2 : Workout := mkW "A" "2024_01-01"

/-- Sample: a record whose `start` is shorter than 10 characters. -/
def wShort : Workout := mkW "Running" "short"

/-- Sample store holding only `wShort`, keyed consistently. -/
def sShort : Store := ⟨[(WorkoutStorage._get_key wShort, wShort)]⟩

/-- Sample: a record starting the day before `today2024`. -/
def wRecent : Workout := mkW "Running" "2023-12-31T10:00:00-08:00"

/-- Sample store holding only `wRecent`. -/
def sRecent : Store := ⟨[(WorkoutStorage._get_key wRecent, wRecent)]⟩

/-- Sample date: 2024-01-01 (a valid Gregorian date). -/
def today2024 : PDate := ⟨2024, 1, 1⟩

/-- Sample three-record store for the round-trip witness. -/
def sThree : Store :=
  ⟨[(WorkoutStorage._get_key wRun1, wRun1),
    (WorkoutStorage._get_key wYoga, wYoga),
    (WorkoutStorage._get_key wShort, wShort)]⟩

/-- Sample ingestion payload. -/
def pSample : WorkoutData :=
  ⟨"Running", "2024-01-01T08:00:00-08:00", none, some 30, some 300, none, none,
    some "Apple Health"⟩

/-- Sample clock reading for the ingestion witness. -/
def nowSample : String := "2024-06-01T12:00:00-07:00"

/-- The record `ingest_workout` builds from `pSample` at clock `nowSample`. -/
def wSample : Workout := { model_dump pSample with ingested_at := some nowSample }

/-- Expected response for the ingestion witness. -/
def respSample : IngestResponse :=
  ⟨"ok", "Workout ingested", "Running", "2024-01-01T08:00:00-08:00", true⟩

/-- Expected store for the ingestion witness. -/
def sAfterIngest : Store := ⟨[(WorkoutStorage._get_key wSample, wSample)]⟩

/-- Expected file contents for the ingestion witness. -/
def fsAfterIngest : FileState := some [wSample]

/-! ### Dictionary lemmas -/

theorem dictContains_iff (m : List (String × Workout)) (k : String) :
    dictContains m k = true ↔ k ∈ m.map Prod.fst := by
  induction m with
  | nil => simp [dictContains]
  | cons p rest ih =>
      cases p with
      | mk k' v' =>
          simp only [dictContains, List.map_cons, List.mem_cons, Bool.or_eq_true, beq_iff_eq, ih]
          constructor
          · rintro (h | h)
            · exact Or.inl h.symm
            · exact Or.inr h
          · rintro (h | h)
            · exact Or.inl h.symm
            · exact Or.inr h

theorem dictLookup_dictInsert_self (m : List (String × Workout)) (k : String) (v : Workout) :
    dictLookup (dictInsert m k v) k = some v := by
  induction m with
  | nil => simp [dictInsert, dictLookup]
  | cons p rest ih =>
      cases p with
      | mk k' v' =>
          by_cases h : k' = k <;> simp [dictInsert, dictLookup, h, ih]

theorem dictContains_dictInsert_self (m : List (String × Workout)) (k : String) (v : Workout) :
    dictContains (dictInsert m k v) k = true := by
  induction m with
  | nil => simp [dictInsert, dictContains]
  | cons p rest ih =>
      cases p with
      | mk k' v' =>
          by_cases h : k' = k <;> simp [dictInsert, dictContains, h, ih]

theorem dictContains_dictInsert (m : List (String × Workout)) (k k2 : String) (v : Workout) :
    dictContains (dictInsert m k v) k2 = (dictContains m k2 || k == k2) := by
  induction m with
  | nil => simp [dictInsert, dictContains]
  | cons p rest ih =>
      cases p with
      | mk k' v' =>
          by_cases h : k' = k
          · subst h
            cases h2 : (k' == k2) <;> simp [dictInsert, dictContains, h2]
          · simp [dictInsert, h, dictContains, ih, Bool.or_assoc]

theorem dictInsert_eq_append (m : List (String × Workout)) (k : String) (v : Workout)
    (h : dictContains m k = false) : dictInsert m k v = m ++ [(k, v)] := by
  induction m with
  | nil => rfl
  | cons p rest ih =>
      cases p with
      | mk k' v' =>
          simp only [dictContains, Bool.or_eq_false_iff, beq_eq_false_iff_ne, ne_eq] at h
          simp [dictInsert, h.1, ih h.2]

theorem dictContains_append (a b : List (String × Workout)) (k : String) :
    dictContains (a ++ b) k = (dictContains a k || dictContains b k) := by
  induction a with
  | nil => simp [dictContains]
  | cons p rest ih =>
      cases p with
      | mk k' v' => simp [dictContains, ih, Bool.or_assoc]

theorem filter_key_eq_nil (m : List (String × Workout)) (k : String)
    (h : dictContains m k = false) : m.filter (fun p => p.1 == k) = [] := by
  induction m with
  | nil => rfl
  | cons p rest ih =>
      cases p with
      | mk k' v' =>
          simp only [dictContains, Bool.or_eq_false_iff] at h
          simp [List.filter_cons, h.1, ih h.2]

theorem map_fst_dictInsert_of_contains (m : List (String × Workout)) (k : String) (v : Workout)
    (h : dictContains m k = true) :
    (dictInsert m k v).map Prod.fst = m.map Prod.fst := by
  induction m with
  | nil => simp [dictContains] at h
  | cons p rest ih =>
      cases p with
      | mk k' v' =>
          by_cases hk : k' = k
          · subst hk; simp [dictInsert]
          · simp only [dictContains, Bool.or_eq_true, beq_iff_eq] at h
            rcases h with h | h
            · exact absurd h hk
            · simp [dictInsert, hk, ih h]

theorem nodup_keys_dictInsert (m : List (String × Workout)) (k : String) (v : Workout)
    (hnd : (m.map Prod.fst).Nodup) :
    ((dictInsert m k v).map Prod.fst).Nodup := by
  cases h : dictContains m k
  · rw [dictInsert_eq_append m k v h]
    have hk : k ∉ m.map Prod.fst := fun mem => by
      simp [(dictContains_iff m k).2 mem] at h
    simp [List.nodup_append, hnd, hk, List.disjoint_singleton]
  · rw [map_fst_dictInsert_of_contains m k v h]; exact hnd

theorem countKey_dictInsert (m : List (String × Workout)) (k : String) (v : Workout)
    (hnd : (m.map Prod.fst).Nodup) :
    ((dictInsert m k v).filter (fun p => p.1 == k)).length = 1 := by
  induction m with
  | nil => simp [dictInsert]
  | cons p rest ih =>
      cases p with
      | mk k' v' =>
          simp only [List.map_cons, List.nodup_cons] at hnd
          by_cases h : k' = k
          · subst h
            have hres : dictContains rest k' = false := by
              cases hc : dictContains rest k'
              · rfl
              · exact absurd ((dictContains_iff rest k').1 hc) hnd.1
            simp [dictInsert, List.filter_cons, filter_key_eq_nil rest k' hres]
          · simp [dictInsert, h, List.filter_cons, ih hnd.2]

/-! ### Sort lemmas -/

theorem insertDescBy_perm {α : Type} (key : α → String) (x : α) (l : List α) :
    List.Perm (insertDescBy key x l) (x :: l) := by
  induction l with
  | nil => exact List.Perm.refl _
  | cons y ys ih =>
      unfold insertDescBy
      split
      · exact List.Perm.refl _
      · exact List.Perm.trans (List.Perm.cons y ih) (List.Perm.swap x y ys)

theorem sortDescBy_perm {α : Type} (key : α → String) (l : List α) :
    List.Perm (sortDescBy key l) l := by
  induction l with
  | nil => exact List.Perm.refl _
  | cons x xs ih =>
      exact List.Perm.trans (insertDescBy_perm key x (sortDescBy key xs)) (List.Perm.cons x ih)

theorem mem_sortDescBy {α : Type} (key : α → String) (y : α) (l : List α) :
    y ∈ sortDescBy key l ↔ y ∈ l := (sortDescBy_perm key l).mem_iff

theorem length_sortDescBy {α : Type} (key : α → String) (l : List α) :
    (sortDescBy key l).length = l.length := (sortDescBy_perm key l).length_eq

/-! ### Claims C8, C9, C1 -/

/-- Claim C8: every query operation — `get_all`, `get_by_date`, `get_by_type`,
`get_recent`, `get_today`, `get_summary`, and `count` — leaves the store's
mapping unchanged: the store component of each result equals the input
store. -/
theorem c8_queries_leave_mapping_unchanged (s : Store) (date_str workout_type : String)
    (today : PDate) (days : Nat) :
    (WorkoutStorage.get_all s).2 = s ∧
    (WorkoutStorage.get_by_date s date_str).2 = s ∧
    (WorkoutStorage.get_by_type s workout_type).2 = s ∧
    (WorkoutStorage.get_recent today s days).2 = s ∧
    (WorkoutStorage.get_today today s).2 = s ∧
    (WorkoutStorage.get_summary today s days).2 = s ∧
    (WorkoutStorage.count s).2 = s :=
  ⟨rfl, rfl, rfl, rfl, rfl, rfl, rfl⟩

/-- Claim C9: a failed file write during `add_workout` (`ok = false`) yields
the same `is_new` result and the same in-memory mapping as a successful one,
leaves the file untouched, and the raised I/O error is caught inside
`save_to_file` rather than propagated (the write really fails: `rawWriteFile`
returns `Except.error`). -/
theorem c9_persistence_error_swallowed (s : Store) (w : Workout) (fs fs' : FileState) :
    (WorkoutStorage.add_workout s w false fs).1 = (WorkoutStorage.add_workout s w true fs').1 ∧
    (WorkoutStorage.add_workout s w false fs).2.1 =
      (WorkoutStorage.add_workout s w true fs').2.1 ∧
    (WorkoutStorage.add_workout s w false fs).2.2 = fs ∧
    (∃ e, WorkoutStorage.rawWriteFile false
      (dictValues (WorkoutStorage.add_workout s w false fs).2.1.workouts) = Except.error e) :=
  ⟨rfl, rfl, rfl, ⟨"OSError", rfl⟩⟩

/-- Claim C1: for records `w1`, `w2` with the same dedup key, adding `w1` then
`w2` leaves exactly one entry under that key, holding exactly `w2`; the second
call reports "not new", and the first call reports "new" whenever the key was
previously absent. -/
theorem c1_add_workout_last_write_wins (s : Store) (w1 w2 : Workout)
    (ok1 ok2 : Bool) (fs1 fs2 : FileState)
    (hk : WorkoutStorage._get_key w1 = WorkoutStorage._get_key w2)
    (hnd : (s.workouts.map Prod.fst).Nodup) :
    dictLookup ((WorkoutStorage.add_workout
        (WorkoutStorage.add_workout s w1 ok1 fs1).2.1 w2 ok2 fs2).2.1).workouts
        (WorkoutStorage._get_key w2) = some w2 ∧
    (((WorkoutStorage.add_workout
        (WorkoutStorage.add_workout s w1 ok1 fs1).2.1 w2 ok2 fs2).2.1).workouts.filter
        (fun p => p.1 == WorkoutStorage._get_key w2)).length = 1 ∧
    (WorkoutStorage.add_workout
        (WorkoutStorage.add_workout s w1 ok1 fs1).2.1 w2 ok2 fs2).1 = false ∧
    (dictContains s.workouts (WorkoutStorage._get_key w1) = false →
      (WorkoutStorage.add_workout s w1 ok1 fs1).1 = true) := by
  refine ⟨?_, ?_, ?_, ?_⟩
  · exact dictLookup_dictInsert_self _ _ _
  · exact countKey_dictInsert _ _ _ (nodup_keys_dictInsert _ _ _ hnd)
  · show (!(dictContains (dictInsert s.workouts (WorkoutStorage._get_key w1) w1)
        (WorkoutStorage._get_key w2))) = false
    rw [← hk, dictContains_dictInsert_self]
    rfl
  · intro h
    show (!(dictContains s.workouts (WorkoutStorage._get_key w1))) = true
    rw [h]
    rfl

/-- Witness for C1 at the concrete records `wRun1`, `wRun2` on the empty
store. -/
theorem c1_add_workout_last_write_wins_witness :
    dictLookup ((WorkoutStorage.add_workout
        (WorkoutStorage.add_workout ⟨[]⟩ wRun1 true none).2.1 wRun2 true none).2.1).workouts
        (WorkoutStorage._get_key wRun2) = some wRun2 ∧
    (((WorkoutStorage.add_workout
        (WorkoutStorage.add_workout ⟨[]⟩ wRun1 true none).2.1 wRun2 true none).2.1).workouts.filter
        (fun p => p.1 == WorkoutStorage._get_key wRun2)).length = 1 ∧
    (WorkoutStorage.add_workout
        (WorkoutStorage.add_workout ⟨[]⟩ wRun1 true none).2.1 wRun2 true none).1 = false ∧
    (dictContains (Store.mk []).workouts (WorkoutStorage._get_key wRun1) = false →
      (WorkoutStorage.add_workout ⟨[]⟩ wRun1 true none).1 = true) :=
  c1_add_workout_last_write_wins ⟨[]⟩ wRun1 wRun2 true true none none (by decide) (by decide)

/-! ### Insertion counting (C4) -/

theorem addAll_cons (w : Workout) (ws : List Workout) (s : Store) :
    addAll (w :: ws) s = addAll ws ⟨dictInsert s.workouts (WorkoutStorage._get_key w) w⟩ := rfl

theorem addAll_length (ws : List Workout) : ∀ (s : Store),
    (ws.map WorkoutStorage._get_key).Nodup →
    (∀ w ∈ ws, dictContains s.workouts (WorkoutStorage._get_key w) = false) →
    (addAll ws s).workouts.length = s.workouts.length + ws.length := by
  induction ws with
  | nil => intro s _ _; simp [addAll]
  | cons w ws ih =>
      intro s hnd hfresh
      simp only [List.map_cons, List.nodup_cons] at hnd
      have h0 : dictContains s.workouts (WorkoutStorage._get_key w) = false :=
        hfresh w (List.mem_cons_self w ws)
      have hfresh' : ∀ w' ∈ ws,
          dictContains (dictInsert s.workouts (WorkoutStorage._get_key w) w)
            (WorkoutStorage._get_key w') = false := by
        intro w' hw'
        rw [dictContains_dictInsert]
        have hne : (WorkoutStorage._get_key w == WorkoutStorage._get_key w') = false :=
          beq_eq_false_iff_ne.2
            (fun e => hnd.1 (e ▸ List.mem_map_of_mem WorkoutStorage._get_key hw'))
        rw [hfresh w' (List.mem_cons_of_mem w hw'), hne]
        rfl
      rw [addAll_cons, ih _ hnd.2 hfresh']
      show (dictInsert s.workouts (WorkoutStorage._get_key w) w).length + ws.length
        = s.workouts.length + (w :: ws).length
      rw [dictInsert_eq_append _ _ _ h0]
      simp [List.length_append]
      omega

/-- Claim C4: inserting N records with pairwise-distinct keys into an empty
store gives `count() = N`; `clear()` returns the pre-clear count and leaves
`count() = 0`; `clear()` on an empty store returns 0. -/
theorem c4_count_and_clear (ws : List Workout) (s : Store) (ok : Bool) (fs : FileState)
    (hnd : (ws.map WorkoutStorage._get_key).Nodup) :
    (WorkoutStorage.count (addAll ws ⟨[]⟩)).1 = ws.length ∧
    (WorkoutStorage.clear s ok fs).1 = (WorkoutStorage.count s).1 ∧
    (WorkoutStorage.count (WorkoutStorage.clear s ok fs).2.1).1 = 0 ∧
    (WorkoutStorage.clear ⟨[]⟩ ok fs).1 = 0 := by
  refine ⟨?_, rfl, rfl, rfl⟩
  show (addAll ws ⟨[]⟩).workouts.length = ws.length
  rw [addAll_length ws ⟨[]⟩ hnd (fun w _ => rfl)]
  simp

/-- Witness for C4 at two concrete distinct-key records. -/
theorem c4_count_and_clear_witness :
    (WorkoutStorage.count (addAll [wRun1, wYoga] ⟨[]⟩)).1 = [wRun1, wYoga].length ∧
    (WorkoutStorage.clear sRecent true none).1 = (WorkoutStorage.count sRecent).1 ∧
    (WorkoutStorage.count (WorkoutStorage.clear sRecent true none).2.1).1 = 0 ∧
    (WorkoutStorage.clear ⟨[]⟩ true none).1 = 0 :=
  c4_count_and_clear [wRun1, wYoga] sRecent true none (by decide)

/-! ### Summary aggregation (C6) -/

theorem sumCounts_bumpAgg (m : List (String × WorkoutStorage.TypeAgg)) (t : String)
    (dur cal : Rat) :
    sumCounts (WorkoutStorage.bumpAgg m t dur cal) = sumCounts m + 1 := by
  induction m with
  | nil => simp [WorkoutStorage.bumpAgg, sumCounts]
  | cons p rest ih =>
      cases p with
      | mk t' a =>
          by_cases h : t' = t <;>
            simp [WorkoutStorage.bumpAgg, h, sumCounts] at ih ⊢ <;> omega

theorem summaryStep_total (acc : WorkoutStorage.Summary) (w : Workout) :
    (WorkoutStorage.summaryStep acc w).total_workouts = acc.total_workouts := rfl

theorem foldl_summaryStep_total (l : List Workout) : ∀ acc : WorkoutStorage.Summary,
    (l.foldl WorkoutStorage.summaryStep acc).total_workouts = acc.total_workouts := by
  induction l with
  | nil => intro acc; rfl
  | cons w ws ih => intro acc; rw [List.foldl_cons, ih, summaryStep_total]

theorem summaryStep_by_type (acc : WorkoutStorage.Summary) (w : Workout) :
    (WorkoutStorage.summaryStep acc w).by_type
      = WorkoutStorage.bumpAgg acc.by_type (w.type.getD "Unknown")
          ((w.duration_minutes).getD 0) ((w.calories).getD 0) := rfl

theorem foldl_summaryStep_sumCounts (l : List Workout) : ∀ acc : WorkoutStorage.Summary,
    sumCounts (l.foldl WorkoutStorage.summaryStep acc).by_type
      = sumCounts acc.by_type + l.length := by
  induction l with
  | nil => intro acc; simp
  | cons w ws ih =>
      intro acc
      rw [List.foldl_cons, ih, summaryStep_by_type, sumCounts_bumpAgg]
      simp [List.length_cons]
      omega

/-- Claim C6: `get_summary(days).total_workouts` equals the length of
`get_recent(days)`, and the `by_type` bucket counts sum to
`total_workouts`. -/
theorem c6_summary_consistency (today : PDate) (s : Store) (days : Nat) :
    (WorkoutStorage.get_summary today s days).1.total_workouts
      = (WorkoutStorage.get_recent today s days).1.length ∧
    sumCounts (WorkoutStorage.get_summary today s days).1.by_type
      = (WorkoutStorage.get_summary today s days).1.total_workouts := by
  constructor
  · exact foldl_summaryStep_total _ _
  · have h1 : (WorkoutStorage.get_summary today s days).1.total_workouts
        = (WorkoutStorage.get_recent today s days).1.length := foldl_summaryStep_total _ _
    rw [h1]
    show sumCounts ((WorkoutStorage.get_recent today s days).1.foldl
        WorkoutStorage.summaryStep _).by_type = _
    rw [foldl_summaryStep_sumCounts]
    simp [sumCounts]

/-! ### Save/load round trip (C7) -/

theorem loadFrom_acc (m : List (String × Workout)) : ∀ (acc : List (String × Workout)),
    (m.map Prod.fst).Nodup →
    (∀ p ∈ m, p.1 = WorkoutStorage._get_key p.2) →
    (∀ p ∈ m, dictContains acc p.1 = false) →
    (dictValues m).foldl (fun m' w => dictInsert m' (WorkoutStorage._get_key w) w) acc
      = acc ++ m := by
  induction m with
  | nil => intro acc _ _ _; simp [dictValues]
  | cons p rest ih =>
      intro acc hnd hcons hfresh
      cases p with
      | mk k v =>
          simp only [List.map_cons, List.nodup_cons] at hnd
          have hk : k = WorkoutStorage._get_key v := hcons (k, v) (List.mem_cons_self _ _)
          have h0 : dictContains acc (WorkoutStorage._get_key v) = false := by
            rw [← hk]; exact hfresh (k, v) (List.mem_cons_self _ _)
          have e1 : dictInsert acc (WorkoutStorage._get_key v) v = acc ++ [(k, v)] := by
            rw [dictInsert_eq_append _ _ _ h0, hk]
          have hfresh' : ∀ q ∈ rest, dictContains (acc ++ [(k, v)]) q.1 = false := by
            intro q hq
            rw [dictContains_append, hfresh q (List.mem_cons_of_mem _ hq)]
            have hne : (k == q.1) = false :=
              beq_eq_false_iff_ne.2
                (fun e => hnd.1 (e ▸ List.mem_map_of_mem Prod.fst hq))
            simp [dictContains, hne]
          show (dictValues rest).foldl _ (dictInsert acc (WorkoutStorage._get_key v) v) = _
          rw [e1, ih (acc ++ [(k, v)]) hnd.2
              (fun q hq => hcons q (List.mem_cons_of_mem _ hq)) hfresh']
          simp

theorem loadFrom_values (s : Store)
    (hnd : (s.workouts.map Prod.fst).Nodup)
    (hcons : ∀ p ∈ s.workouts, p.1 = WorkoutStorage._get_key p.2) :
    WorkoutStorage.loadFrom (dictValues s.workouts) = s := by
  show Store.mk ((dictValues s.workouts).foldl
    (fun m' w => dictInsert m' (WorkoutStorage._get_key w) w) []) = s
  rw [loadFrom_acc s.workouts [] hnd hcons (fun p _ => rfl)]
  rfl

/-- Claim C7: saving the current values (what `_save_to_file` writes) and
re-loading them with the `_load_from_file` key derivation yields a store whose
`get_all()` is, up to order, the original `get_all()`. Hypotheses: the store's
keys are those `add_workout` derives (true of every store built by
`add_workout`/`_load_from_file`), and keys are distinct (a dict invariant). -/
theorem c7_save_load_round_trip (s : Store) (fs : FileState) (l : List Workout)
    (hnd : (s.workouts.map Prod.fst).Nodup)
    (hcons : ∀ p ∈ s.workouts, p.1 = WorkoutStorage._get_key p.2)
    (hsave : WorkoutStorage.save_to_file s true fs = some l) :
    List.Perm (WorkoutStorage.get_all (WorkoutStorage.loadFrom l)).1
      (WorkoutStorage.get_all s).1 := by
  have hl : some (dictValues s.workouts) = some l := hsave
  obtain rfl : dictValues s.workouts = l := Option.some.inj hl
  rw [loadFrom_values s hnd hcons]

/-- Witness for C7 at a concrete three-record store. -/
theorem c7_save_load_round_trip_witness :
    List.Perm (WorkoutStorage.get_all (WorkoutStorage.loadFrom [wRun1, wYoga, wShort])).1
      (WorkoutStorage.get_all sThree).1 :=
  c7_save_load_round_trip sThree none [wRun1, wYoga, wShort]
    (by decide) (by decide) (by decide)

/-! ### Ingestion timestamp (C2) -/

/-- Counterexample to C2 as stated: the store's own `add_workout` assigns no
`ingested_at` — a record inserted without one is stored without one, and a
caller-supplied `ingested_at` is stored verbatim. The timestamp is assigned by
the ingestion façade, not by the store. -/
theorem c2_counterexample :
    dictLookup ((WorkoutStorage.add_workout ⟨[]⟩ wNoIngest true none).2.1).workouts
        (WorkoutStorage._get_key wNoIngest) = some wNoIngest ∧
    wNoIngest.ingested_at = none ∧
    dictLookup ((WorkoutStorage.add_workout ⟨[]⟩ wCallerStamp true none).2.1).workouts
        (WorkoutStorage._get_key wCallerStamp) = some wCallerStamp ∧
    wCallerStamp.ingested_at = some "1999-01-01T00:00:00" := by decide

/-- Claim C2 (amended): every record stored through the ingestion endpoint
carries `ingested_at` equal to the handler's clock reading (taken in the fixed
named timezone `DEFAULT_TIMEZONE = "America/Los_Angeles"`, not UTC); the
request model has no `ingested_at` field (`model_dump` yields `none`), so the
caller cannot supply it. The assignment happens in the façade
(`ingest_workout`), not inside the store's `add_workout`. -/
theorem c2_ingest_assigns_timestamp (env x : Option String) (p : WorkoutData)
    (now : String) (s : Store) (ok : Bool) (fs : FileState)
    (resp : IngestResponse) (s' : Store) (fs' : FileState)
    (h : ingest_workout env x p now s ok fs = .ok (resp, s', fs')) :
    dictLookup s'.workouts
        (WorkoutStorage._get_key { model_dump p with ingested_at := some now })
      = some { model_dump p with ingested_at := some now } ∧
    (model_dump p).ingested_at = none ∧
    DEFAULT_TIMEZONE = "America/Los_Angeles" := by
  unfold ingest_workout at h
  split at h
  · simp at h
  · simp only [Except.ok.injEq, Prod.mk.injEq] at h
    obtain ⟨-, hs', -⟩ := h
    subst hs'
    exact ⟨dictLookup_dictInsert_self _ _ _, rfl, rfl⟩

/-- Witness for C2 (amended) at a concrete payload and clock reading. -/
theorem c2_ingest_assigns_timestamp_witness :
    dictLookup sAfterIngest.workouts
        (WorkoutStorage._get_key { model_dump pSample with ingested_at := some nowSample })
      = some { model_dump pSample with ingested_at := some nowSample } ∧
    (model_dump pSample).ingested_at = none ∧
    DEFAULT_TIMEZONE = "America/Los_Angeles" :=
  c2_ingest_assigns_timestamp none none pSample nowSample ⟨[]⟩ true none
    respSample sAfterIngest fsAfterIngest rfl

/-! ### Key derivation (C3) -/

/-- Counterexample to C3 as stated: an absent `type` is rendered by the
f-string in `_get_key` as the literal text `"None"`, not as the empty string
the claim describes. -/
theorem c3_counterexample :
    WorkoutStorage._get_key wNoType ≠ specKeyEmptyDefault wNoType ∧
    WorkoutStorage._get_key wNoType = "None_2024-01-01T08:00:00-08:00" ∧
    specKeyEmptyDefault wNoType = "_2024-01-01T08:00:00-08:00" := by decide

/-- Claim C3 (amended): the dedup key is `type + "_" + start` with an absent
`type` or `start` rendered as the literal string `"None"` (Python `str(None)`),
and records whose renderings concatenate to the same string share a key — in
particular the field-boundary collision `("A_2024", "01-01")` vs
`("A", "2024_01-01")`. -/
theorem c3_key_concatenation (w : Workout) :
    WorkoutStorage._get_key w = pyOptStr w.type ++ "_" ++ pyOptStr w.start ∧
    pyOptStr none = "None" ∧
    (∀ w1 w2 : Workout,
        pyOptStr w1.type ++ "_" ++ pyOptStr w1.start
          = pyOptStr w2.type ++ "_" ++ pyOptStr w2.start →
        WorkoutStorage._get_key w1 = WorkoutStorage._get_key w2) ∧
    WorkoutStorage._get_key wColl1 = WorkoutStorage._get_key wColl2 :=
  ⟨rfl, rfl, fun _ _ h => h, by decide⟩

/-! ### Lexicographic string order -/

theorem lexLtB_trans : ∀ (a b c : List Char),
    lexLtB a b = true → lexLtB b c = true → lexLtB a c = true := by
  intro a
  induction a with
  | nil =>
      intro b c h1 h2
      cases b with
      | nil => simp [lexLtB] at h1
      | cons y ys =>
          cases c with
          | nil => simp [lexLtB] at h2
          | cons z zs => rfl
  | cons x xs ih =>
      intro b c h1 h2
      cases b with
      | nil => simp [lexLtB] at h1
      | cons y ys =>
          cases c with
          | nil => simp [lexLtB] at h2
          | cons z zs =>
              simp only [lexLtB, Bool.or_eq_true, Bool.and_eq_true, decide_eq_true_eq]
                at h1 h2 ⊢
              rcases h1 with h1 | ⟨e1, r1⟩
              · rcases h2 with h2 | ⟨e2, r2⟩
                · exact Or.inl (by omega)
                · exact Or.inl (by omega)
              · rcases h2 with h2 | ⟨e2, r2⟩
                · exact Or.inl (by omega)
                · exact Or.inr ⟨by omega, ih ys zs r1 r2⟩

theorem lexLtB_append_same (c as bs : List Char) :
    lexLtB (c ++ as) (c ++ bs) = lexLtB as bs := by
  induction c with
  | nil => rfl
  | cons x xs ih =>
      show (decide (x.toNat < x.toNat)
        || (decide (x.toNat = x.toNat) && lexLtB (xs ++ as) (xs ++ bs))) = lexLtB as bs
      rw [ih]
      simp

/-! ### Digit rendering -/

theorem dChar_toNat (n : Nat) : (dChar n).toNat = 48 + n % 10 := by
  have h : n % 10 = 0 ∨ n % 10 = 1 ∨ n % 10 = 2 ∨ n % 10 = 3 ∨ n % 10 = 4 ∨
      n % 10 = 5 ∨ n % 10 = 6 ∨ n % 10 = 7 ∨ n % 10 = 8 ∨ n % 10 = 9 := by omega
  unfold dChar
  rcases h with h | h | h | h | h | h | h | h | h | h <;> rw [h] <;> decide

theorem lexLtB_of_head_lt {x y : Char} (h : x.toNat < y.toNat) (xs ys : List Char) :
    lexLtB (x :: xs) (y :: ys) = true := by
  show (decide (x.toNat < y.toNat) || (decide (x.toNat = y.toNat) && lexLtB xs ys)) = true
  rw [decide_eq_true h, Bool.true_or]

theorem lexLtB_cons_same (x : Char) (xs ys : List Char) :
    lexLtB (x :: xs) (x :: ys) = lexLtB xs ys := by
  show (decide (x.toNat < x.toNat) || (decide (x.toNat = x.toNat) && lexLtB xs ys))
    = lexLtB xs ys
  rw [decide_eq_false (lt_irrefl _), decide_eq_true rfl, Bool.false_or, Bool.true_and]

theorem pad4_lt_of_lt {a b : Nat} (ha : a < 10000) (hb : b < 10000) (h : a < b)
    (t1 t2 : List Char) : lexLtB (pad4 a ++ t1) (pad4 b ++ t2) = true := by
  show lexLtB (dChar (a / 1000) :: dChar (a / 100) :: dChar (a / 10) :: dChar a :: t1)
      (dChar (b / 1000) :: dChar (b / 100) :: dChar (b / 10) :: dChar b :: t2) = true
  rcases Nat.lt_trichotomy (a / 1000) (b / 1000) with h3 | h3 | h3
  · refine lexLtB_of_head_lt ?_ _ _
    rw [dChar_toNat, dChar_toNat]
    omega
  · rw [show dChar (a / 1000) = dChar (b / 1000) from by rw [h3], lexLtB_cons_same]
    rcases Nat.lt_trichotomy (a / 100) (b / 100) with h2 | h2 | h2
    · refine lexLtB_of_head_lt ?_ _ _
      rw [dChar_toNat, dChar_toNat]
      have e1 : a / 100 / 10 = a / 1000 := by rw [Nat.div_div_eq_div_mul]
      have e2 : b / 100 / 10 = b / 1000 := by rw [Nat.div_div_eq_div_mul]
      omega
    · rw [show dChar (a / 100) = dChar (b / 100) from by rw [h2], lexLtB_cons_same]
      rcases Nat.lt_trichotomy (a / 10) (b / 10) with h1 | h1 | h1
      · refine lexLtB_of_head_lt ?_ _ _
        rw [dChar_toNat, dChar_toNat]
        have e1 : a / 10 / 10 = a / 100 := by rw [Nat.div_div_eq_div_mul]
        have e2 : b / 10 / 10 = b / 100 := by rw [Nat.div_div_eq_div_mul]
        omega
      · rw [show dChar (a / 10) = dChar (b / 10) from by rw [h1], lexLtB_cons_same]
        refine lexLtB_of_head_lt ?_ _ _
        rw [dChar_toNat, dChar_toNat]
        omega
      · omega
    · omega
  · omega

theorem pad2_lt_of_lt {a b : Nat} (ha : a < 100) (hb : b < 100) (h : a < b)
    (t1 t2 : List Char) : lexLtB (pad2 a ++ t1) (pad2 b ++ t2) = true := by
  show lexLtB (dChar (a / 10) :: dChar a :: t1) (dChar (b / 10) :: dChar b :: t2) = true
  rcases Nat.lt_trichotomy (a / 10) (b / 10) with h1 | h1 | h1
  · refine lexLtB_of_head_lt ?_ _ _
    rw [dChar_toNat, dChar_toNat]
    omega
  · rw [show dChar (a / 10) = dChar (b / 10) from by rw [h1], lexLtB_cons_same]
    refine lexLtB_of_head_lt ?_ _ _
    rw [dChar_toNat, dChar_toNat]
    omega
  · omega

/-! ### Calendar lemmas -/

theorem daysInMonth_pos (y m : Nat) : 1 ≤ daysInMonth y m := by
  unfold daysInMonth
  split_ifs <;> omega

theorem daysInMonth_le_31 (y m : Nat) : daysInMonth y m ≤ 31 := by
  unfold daysInMonth
  split_ifs <;> omega

theorem prevDay_year_le (d : PDate) : (prevDay d).year ≤ d.year := by
  unfold prevDay
  split_ifs <;> simp

theorem subDays_year_le (d : PDate) (j k : Nat) (h : j ≤ k) :
    (subDays d k).year ≤ (subDays d j).year := by
  induction k with
  | zero =>
      have hj : j = 0 := by omega
      subst hj; exact le_refl _
  | succ k ih =>
      by_cases hj : j = k + 1
      · subst hj; exact le_refl _
      · have hj' : j ≤ k := by omega
        exact le_trans (prevDay_year_le (subDays d k)) (ih hj')

theorem prevDay_valid {d : PDate} (h : d.Valid)
    (hy : 2 ≤ d.year ∨ 2 ≤ d.month ∨ 2 ≤ d.day) : (prevDay d).Valid := by
  obtain ⟨h1, h2, h3, h4, h5, h6⟩ := h
  have e31 : daysInMonth (d.year - 1) 12 = 31 := rfl
  have hp : 1 ≤ daysInMonth d.year (d.month - 1) := daysInMonth_pos _ _
  unfold prevDay
  split_ifs with hd hm <;> simp [PDate.Valid] <;> omega

theorem prevDay_lt {d : PDate} (h : d.Valid) : dateLt (prevDay d) d := by
  obtain ⟨h1, h2, h3, h4, h5, h6⟩ := h
  unfold prevDay dateLt
  split_ifs with hd hm <;> simp <;> omega

theorem subDays_valid (d : PDate) (k : Nat) (h : d.Valid)
    (hy : 1000 ≤ (subDays d k).year) : (subDays d k).Valid := by
  induction k with
  | zero => exact h
  | succ k ih =>
      have hy' : 1000 ≤ (subDays d k).year :=
        le_trans hy (prevDay_year_le (subDays d k))
      exact prevDay_valid (ih hy') (Or.inl (by omega))

theorem dateLt_trans {a b c : PDate} (h1 : dateLt a b) (h2 : dateLt b c) : dateLt a c := by
  unfold dateLt at *
  omega

theorem subDays_step_lt (d : PDate) (k : Nat) (h : d.Valid)
    (hy : 1000 ≤ (subDays d (k + 1)).year) :
    dateLt (subDays d (k + 1)) (subDays d k) := by
  have hy' : 1000 ≤ (subDays d k).year := le_trans hy (prevDay_year_le _)
  exact prevDay_lt (subDays_valid d k h hy')

theorem subDays_le_of_le (d : PDate) (j k : Nat) (h : d.Valid) (hjk : j ≤ k)
    (hy : 1000 ≤ (subDays d k).year) :
    dateLt (subDays d k) (subDays d j) ∨ subDays d k = subDays d j := by
  induction k with
  | zero =>
      have hj : j = 0 := by omega
      subst hj; exact Or.inr rfl
  | succ k ih =>
      by_cases hj : j = k + 1
      · subst hj; exact Or.inr rfl
      · have hj' : j ≤ k := by omega
        have hy' : 1000 ≤ (subDays d k).year := le_trans hy (prevDay_year_le _)
        have step : dateLt (subDays d (k + 1)) (subDays d k) := subDays_step_lt d k h hy
        rcases ih hj' hy' with hlt | heq
        · exact Or.inl (dateLt_trans step hlt)
        · exact Or.inl (heq ▸ step)

/-! ### Rendering is monotone on valid dates -/

theorem renderChars_lt {a b : PDate} (hva : a.Valid) (hvb : b.Valid) (h : dateLt a b) :
    lexLtB (renderChars a) (renderChars b) = true := by
  obtain ⟨ha1, ha2, ha3, ha4, ha5, ha6⟩ := hva
  obtain ⟨hb1, hb2, hb3, hb4, hb5, hb6⟩ := hvb
  have hdax : a.day ≤ 31 := le_trans ha6 (daysInMonth_le_31 _ _)
  have hdbx : b.day ≤ 31 := le_trans hb6 (daysInMonth_le_31 _ _)
  rcases h with hy | ⟨hy, hm | ⟨hm, hd⟩⟩
  · exact pad4_lt_of_lt (by omega) (by omega) hy _ _
  · unfold renderChars
    rw [hy]
    show lexLtB ((pad4 b.year ++ ['-']) ++ (pad2 a.month ++ ('-' :: pad2 a.day)))
        ((pad4 b.year ++ ['-']) ++ (pad2 b.month ++ ('-' :: pad2 b.day))) = true
    rw [lexLtB_append_same]
    exact pad2_lt_of_lt (by omega) (by omega) hm _ _
  · unfold renderChars
    rw [hy, hm]
    show lexLtB ((pad4 b.year ++ ('-' :: (pad2 b.month ++ ['-']))) ++ pad2 a.day)
        ((pad4 b.year ++ ('-' :: (pad2 b.month ++ ['-']))) ++ pad2 b.day) = true
    rw [lexLtB_append_same]
    have := pad2_lt_of_lt (a := a.day) (b := b.day) (by omega) (by omega) hd [] []
    simpa using this

/-! ### Claims C5 and C10 -/

/-- Claim C5: `get_recent` is monotone in `days` at a fixed `today`: with
`d1 ≤ d2`, every record returned by `get_recent(d1)` is returned by
`get_recent(d2)`. Side conditions keep the cutoff computation inside the
regime where `strftime("%Y-%m-%d")` produces a four-digit year: `today` is a
real calendar date and `today - d2` days does not fall before year 1000. -/
theorem c5_get_recent_monotone (s : Store) (today : PDate) (d1 d2 : Nat) (w : Workout)
    (hv : today.Valid) (hy : 1000 ≤ (subDays today d2).year) (hd : d1 ≤ d2)
    (hw : w ∈ (WorkoutStorage.get_recent today s d1).1) :
    w ∈ (WorkoutStorage.get_recent today s d2).1 := by
  have hw' : w ∈ (dictValues s.workouts).filter
      (fun w => !(lexLtB (WorkoutStorage.startDateChars w)
        (renderChars (subDays today d1)))) := by
    rw [← mem_sortDescBy startOrEmpty]
    exact hw
  show w ∈ sortDescBy startOrEmpty ((dictValues s.workouts).filter
      (fun w => !(lexLtB (WorkoutStorage.startDateChars w)
        (renderChars (subDays today d2)))))
  rw [mem_sortDescBy]
  rw [List.mem_filter] at hw' ⊢
  obtain ⟨hmem, hcond⟩ := hw'
  refine ⟨hmem, ?_⟩
  rw [Bool.not_eq_true'] at hcond ⊢
  cases hc : lexLtB (WorkoutStorage.startDateChars w) (renderChars (subDays today d2))
  · rfl
  · exfalso
    rcases subDays_le_of_le today d1 d2 hv hd hy with hlt | heq
    · have hv2 : (subDays today d2).Valid := subDays_valid today d2 hv hy
      have hy1 : 1000 ≤ (subDays today d1).year :=
        le_trans hy (subDays_year_le today d1 d2 hd)
      have hv1 : (subDays today d1).Valid := subDays_valid today d1 hv hy1
      have hr : lexLtB (renderChars (subDays today d2))
          (renderChars (subDays today d1)) = true := renderChars_lt hv2 hv1 hlt
      have hx : lexLtB (WorkoutStorage.startDateChars w)
          (renderChars (subDays today d1)) = true := lexLtB_trans _ _ _ hc hr
      rw [hx] at hcond
      exact absurd hcond (by decide)
    · rw [heq] at hc
      rw [hc] at hcond
      exact absurd hcond (by decide)

/-- Witness for C5: a record from 2023-12-31 is in `get_recent(1)` and, by the
theorem, in `get_recent(2)` for `today = 2024-01-01`. -/
theorem c5_get_recent_monotone_witness :
    today2024.Valid ∧ 1000 ≤ (subDays today2024 2).year ∧
    wRecent ∈ (WorkoutStorage.get_recent today2024 sRecent 1).1 ∧
    wRecent ∈ (WorkoutStorage.get_recent today2024 sRecent 2).1 :=
  ⟨by decide, by decide, by decide,
    c5_get_recent_monotone sRecent today2024 1 2 wRecent (by decide) (by decide)
      (by decide) (by decide)⟩

/-- Claim C10: a stored record whose `start` string is shorter than 10
characters is never returned by `get_recent(days)` (its date portion is
treated as the empty string, which fails the cutoff comparison), yet it is
returned by `get_all()` and contributes to `count()` (which counts every
entry of `get_all()`). -/
theorem c10_short_start_never_recent (s : Store) (today : PDate) (days : Nat) (w : Workout)
    (hw : w ∈ dictValues s.workouts)
    (hshort : (startOrEmpty w).data.length < 10) :
    w ∉ (WorkoutStorage.get_recent today s days).1 ∧
    w ∈ (WorkoutStorage.get_all s).1 ∧
    (WorkoutStorage.count s).1 = (WorkoutStorage.get_all s).1.length := by
  refine ⟨?_, ?_, ?_⟩
  · intro hmem
    have hmem' : w ∈ (dictValues s.workouts).filter
        (fun w => !(lexLtB (WorkoutStorage.startDateChars w)
          (renderChars (subDays today days)))) := by
      rw [← mem_sortDescBy startOrEmpty]
      exact hmem
    rw [List.mem_filter] at hmem'
    obtain ⟨-, hcond⟩ := hmem'
    rw [Bool.not_eq_true'] at hcond
    have hempty : WorkoutStorage.startDateChars w = [] := by
      show (if 10 ≤ (startOrEmpty w).data.length
          then (startOrEmpty w).data.take 10 else []) = []
      rw [if_neg (by omega)]
    rw [hempty] at hcond
    have hcons : lexLtB [] (renderChars (subDays today days)) = true := rfl
    rw [hcons] at hcond
    exact absurd hcond (by decide)
  · show w ∈ sortDescBy startOrEmpty (dictValues s.workouts)
    rw [mem_sortDescBy]
    exact hw
  · show s.workouts.length = (sortDescBy startOrEmpty (dictValues s.workouts)).length
    rw [length_sortDescBy]
    simp [dictValues]

/-- Witness for C10 at the concrete record `wShort` (start `"short"`). -/
theorem c10_short_start_never_recent_witness :
    wShort ∉ (WorkoutStorage.get_recent today2024 sShort 7).1 ∧
    wShort ∈ (WorkoutStorage.get_all sShort).1 ∧
    (WorkoutStorage.count sShort).1 = (WorkoutStorage.get_all sShort).1.length :=
  c10_short_start_never_recent sShort today2024 7 wShort (by decide) (by decide)
